import Mathlib

/-!
Verification of the multi-database synchronization / refresh layer of the
hospital-registration repository.

The shallow embedding below translates the JavaScript sources
(`src/unnamed/part_000` = class `OnDemandRefresh`,
`src/unnamed/part_001` = class `InstantResponse`,
`src/frontend/assets/realtime-sync.js` = class `RealtimeSync`,
`src/frontend/assets/config.js` = `apiRequest`) into pure Lean functions.
Browser I/O (DOM queries, `fetch`, timers, `console.log`) is made explicit:
the outcome of an awaited asynchronous call is a value of `Except String α`
(`.error` models a thrown/rejected exception), console output is returned as
a `List String`, and wall-clock reads (`Date.now()`) are passed in as a `now`
parameter.  The backend sync engine (`backend/db_sync.py`, listed in the
README but not present under `src/`) is modelled from the spec where a claim
needs it; those definitions carry a `Modelled from the spec:` doc comment.
-/

/-- JS `Map.prototype.get`: association-list lookup, `none` models
`undefined`. -/
def mapGet {κ ν : Type} [DecidableEq κ] : List (κ × ν) → κ → Option ν
  | [], _ => none
  | (k, v) :: rest, key => if k = key then some v else mapGet rest key

/-- JS `Map.prototype.set`: replace the entry for `key` in place, or append a
new entry at the end. -/
def mapSet {κ ν : Type} [DecidableEq κ] : List (κ × ν) → κ → ν → List (κ × ν)
  | [], key, val => [(key, val)]
  | (k, v) :: rest, key, val =>
    if k = key then (key, val) :: rest else (k, v) :: mapSet rest key val

/-- JS `Map.prototype.delete`: remove the entry for `key`. -/
def mapDelete {κ ν : Type} [DecidableEq κ] (m : List (κ × ν)) (k : κ) :
    List (κ × ν) :=
  m.filter fun p => decide ¬(p.1 = k)

/-- `map.get(k) || d` for a non-falsy default `d`. -/
def mapGetD {κ ν : Type} [DecidableEq κ] (m : List (κ × ν)) (k : κ) (d : ν) :
    ν :=
  (mapGet m k).getD d

/-- JS `Set.prototype.add` on a duplicate-free list. -/
def setAdd (l : List String) (x : String) : List String :=
  if x ∈ l then l else l ++ [x]

/-- JS `Set.prototype.delete`. -/
def setDelete (l : List String) (x : String) : List String :=
  l.filter fun y => decide ¬(y = x)

/-- JS `v || d` where `v` is a string or `undefined`/`null`: the empty string
is falsy, so it also selects the default. -/
def jsOrDefault (v : Option String) (d : String) : String :=
  match v with
  | none => d
  | some s => if s = "" then d else s

/-!
## `OnDemandRefresh` (src/unnamed/part_000)

State of one `OnDemandRefresh` instance.  `refreshCooldown` is set to `0` in
the constructor and never mutated; we keep it as a state field.  The
per-section refresh functions (`loadRegistrations`, `loadDepartments`,
`loadProfile`, DOM access) are abstracted as an arbitrary
`refreshOp : String → Except String Unit` parameter: the claims quantify over
every behaviour of the underlying refresh operations, including throwing
ones.
-/

structure RefreshState where
  isRefreshing : Bool
  lastRefreshTime : List (String × Nat)
  refreshCooldown : Nat
deriving DecidableEq

/-- `OnDemandRefresh.shouldRefresh`: `(now - lastTime) > cooldown` with
`lastRefreshTime.get(sectionName) || 0`. -/
def shouldRefresh (s : RefreshState) (now : Nat) (sectionName : String) :
    Bool :=
  decide (now - mapGetD s.lastRefreshTime sectionName 0 > s.refreshCooldown)

/-- `OnDemandRefresh.recordRefresh`: `lastRefreshTime.set(sectionName,
Date.now())`. -/
def recordRefresh (s : RefreshState) (sectionName : String) (now : Nat) :
    RefreshState :=
  { s with lastRefreshTime := mapSet s.lastRefreshTime sectionName now }

/-- `OnDemandRefresh.getSectionsToRefresh`: the `refreshMap` dispatch table;
unknown action types yield `[]`.  `targetSection || this.getCurrentSection()`
uses JS falsiness, and the DOM read `getCurrentSection()` is passed in as
`currentSection`. -/
def getSectionsToRefresh (actionType : String) (targetSection : Option String)
    (currentSection : String) : List String :=
  if actionType = "create_registration" then ["myRegistrations", "booking"]
  else if actionType = "cancel_registration" then ["myRegistrations"]
  else if actionType = "update_profile" then ["profile"]
  else if actionType = "manual_refresh" then
    [jsOrDefault targetSection currentSection]
  else if actionType = "section_switch" then []
  else []

/-- The `for (const section of sectionsToRefresh)` loop in the `try` block of
`refreshAfterUserAction`: each due section is refreshed via `refreshOp` and
its refresh time recorded; the first exception aborts the loop and is
returned as `some error` (to be handled by the caller's `catch`).  The middle
component lists the sections actually refreshed, in order. -/
def refreshSectionsRun (refreshOp : String → Except String Unit) (now : Nat) :
    List String → RefreshState → RefreshState × List String × Option String
  | [], s => (s, [], none)
  | sec :: rest, s =>
    if shouldRefresh s now sec then
      match refreshOp sec with
      | .ok _ =>
        let s1 := recordRefresh s sec now
        let out := refreshSectionsRun refreshOp now rest s1
        (out.1, sec :: out.2.1, out.2.2)
      | .error e => (s, [], some e)
    else refreshSectionsRun refreshOp now rest s

/-- `OnDemandRefresh.refreshAfterUserAction`: if a refresh is already in
flight it logs and returns at once; otherwise it sets `isRefreshing`, runs
the section loop inside `try`, handles any exception in `catch`
(console/toast only), and resets `isRefreshing` in `finally`.  The codomain
is `Except` so that a propagated exception would be representable as
`.error`; the returned list is the sections actually refreshed. -/
def refreshAfterUserAction (refreshOp : String → Except String Unit)
    (now : Nat) (actionType : String) (targetSection : Option String)
    (currentSection : String) (s : RefreshState) :
    Except String (RefreshState × List String) :=
  if s.isRefreshing then
    .ok (s, [])
  else
    let s1 : RefreshState := { s with isRefreshing := true }
    let sections := getSectionsToRefresh actionType targetSection
      currentSection
    match refreshSectionsRun refreshOp now sections s1 with
    | (s2, done, none) =>
      .ok ({ s2 with isRefreshing := false }, done)
    | (s2, done, some _) =>
      .ok ({ s2 with isRefreshing := false }, done)

/-!
## `RealtimeSync` (src/frontend/assets/realtime-sync.js)

The response type of the wrapped `apiRequest` is kept abstract as `ρ`.
`syncCallbacks` maps an operation name to the list of registered callbacks;
a callback is modelled by the `Except` outcome it produces on a given result.
-/

structure SyncState (ρ : Type) where
  pendingOperations : List String
  syncCallbacks : List (String × List (ρ → Except String Unit))
  isEnabled : Bool

/-- The `for (const callback of callbacks)` loop body of
`RealtimeSync.triggerCallbacks`: each callback is invoked inside its own
`try`; a thrown exception is caught (`console.error`) and the loop moves on.
The returned list records each invocation's outcome in order; the codomain is
a plain list, so no exception escapes the loop. -/
def runCallbacks {ρ : Type} (result : ρ) :
    List (ρ → Except String Unit) → List (Except String Unit)
  | [] => []
  | cb :: rest =>
    match cb result with
    | .ok u => .ok u :: runCallbacks result rest
    | .error e => .error e :: runCallbacks result rest

/-- `RealtimeSync.triggerCallbacks`: looks up
`this.syncCallbacks.get(operation) || []` and runs every callback. -/
def triggerCallbacks {ρ : Type} (s : SyncState ρ) (operation : String)
    (result : ρ) : List (Except String Unit) :=
  runCallbacks result (mapGetD s.syncCallbacks operation [])

/-- `RealtimeSync.waitForSync`: returns immediately without waiting.  The
returned number is the milliseconds actually waited (always `0`). -/
def waitForSync (_timeout : Nat) : Nat :=
  0

/-- `RealtimeSync.hasPendingOperations`: `this.pendingOperations.size > 0`. -/
def hasPendingOperations {ρ : Type} (s : SyncState ρ) : Bool :=
  decide (0 < s.pendingOperations.length)

/-- `RealtimeSync.executeOperation`: when disabled it just runs the API call;
otherwise it adds `operationId` to `pendingOperations`, runs the API call,
the refresh callback and the registered callbacks inside `try`, and removes
`operationId` again on both the success path and the `catch` path before
returning or re-throwing.  `apiCall` and `refreshCallback` are the `Except`
outcomes of the awaited closures; status toasts are console-only. -/
def executeOperation {ρ : Type} (operationType : String)
    (apiCall : Except String ρ) (refreshCallback : Except String Unit)
    (now : Nat) (s : SyncState ρ) : Except String ρ × SyncState ρ :=
  if s.isEnabled = false then
    (apiCall, s)
  else
    let operationId := operationType ++ "_" ++ toString now
    let s1 := { s with
      pendingOperations := setAdd s.pendingOperations operationId }
    match apiCall with
    | .error e =>
      (.error e, { s1 with
        pendingOperations := setDelete s1.pendingOperations operationId })
    | .ok result =>
      let _waited := waitForSync 0
      match refreshCallback with
      | .error e =>
        (.error e, { s1 with
          pendingOperations := setDelete s1.pendingOperations operationId })
      | .ok _ =>
        let _outcomes := triggerCallbacks s1 operationType result
        (.ok result, { s1 with
          pendingOperations := setDelete s1.pendingOperations operationId })

/-- Whether `pat` is a leading segment of the character list `s`. -/
def charsStartWith : List Char → List Char → Bool
  | _, [] => true
  | [], _ :: _ => false
  | c :: cs, d :: ds => c = d && charsStartWith cs ds

/-- Whether `pat` occurs contiguously anywhere in the character list. -/
def charsInclude (pat : List Char) : List Char → Bool
  | [] => charsStartWith [] pat
  | c :: cs => charsStartWith (c :: cs) pat || charsInclude pat cs

/-- JS `String.prototype.includes`. -/
def stringIncludes (s sub : String) : Bool :=
  charsInclude sub.data s.data

/-- JS `String.prototype.toLowerCase` (ASCII). -/
def toLowerString (s : String) : String :=
  ⟨s.data.map Char.toLower⟩

/-- JS `String.prototype.toUpperCase` (ASCII). -/
def toUpperString (s : String) : String :=
  ⟨s.data.map Char.toUpper⟩

/-- The guard shared by both wrappers:
`['POST', 'PUT', 'DELETE'].includes(method.toUpperCase())`. -/
def isModifyingOperation (method : String) : Bool :=
  toUpperString method = "POST" || toUpperString method = "PUT" ||
    toUpperString method = "DELETE"

/-- `RealtimeSync.getOperationType`: endpoint/method dispatch.  The JS
`if (path.includes(..)) { if .. return .. }` blocks fall through when no
inner branch returns; the nested conditions are flattened here with
unchanged semantics. -/
def getOperationType (endpoint method : String) : String :=
  let path := toLowerString endpoint
  if stringIncludes path "registration" && method = "POST" then
    "create_registration"
  else if stringIncludes path "registration" &&
      (method = "DELETE" || stringIncludes path "cancel") then
    "cancel_registration"
  else if stringIncludes path "registration" && method = "PUT" then
    "update_registration"
  else if stringIncludes path "patient" && method = "POST" then
    "create_patient"
  else if stringIncludes path "patient" && method = "PUT" then
    "update_patient"
  else if stringIncludes path "patient" && method = "DELETE" then
    "delete_patient"
  else if stringIncludes path "doctor" && method = "POST" then
    "create_doctor"
  else if stringIncludes path "doctor" && method = "PUT" then
    "update_doctor"
  else if stringIncludes path "doctor" && method = "DELETE" then
    "delete_doctor"
  else "general_operation"

/-- The global page-loader functions `RealtimeSync.refreshRelevantData` calls
through `typeof f === 'function'` guards.  `none` models an undefined global;
`some r` models a defined loader whose awaited outcome is `r`. -/
structure LoaderEnv where
  loadRegistrations : Option (Except String Unit)
  loadDepartments : Option (Except String Unit)
  loadProfile : Option (Except String Unit)
  loadDoctors : Option (Except String Unit)
  refreshCurrentSection : Option (Except String Unit)

/-- `if (typeof f === 'function') await f()`: skipped when undefined. -/
def callIfDefined (f : Option (Except String Unit)) : Except String Unit :=
  match f with
  | some r => r
  | none => .ok ()

/-- The `try` block of `RealtimeSync.refreshRelevantData`: the `switch` on
`operationType` (no default case), then the `window.onDemandRefresh`
refresh.  The first exception aborts the chain. -/
def refreshRelevantDataTry (env : LoaderEnv) (operationType : String) :
    Except String Unit := do
  if operationType = "create_registration" ||
      operationType = "cancel_registration" ||
      operationType = "update_registration" then
    callIfDefined env.loadRegistrations
    callIfDefined env.loadDepartments
  else if operationType = "create_patient" ||
      operationType = "update_patient" ||
      operationType = "delete_patient" then
    callIfDefined env.loadProfile
  else if operationType = "create_doctor" ||
      operationType = "update_doctor" ||
      operationType = "delete_doctor" then
    callIfDefined env.loadDoctors
  callIfDefined env.refreshCurrentSection

/-- `RealtimeSync.refreshRelevantData`: the `try` block wrapped in a `catch`
that only logs `'刷新数据失败:'` to the console.  The function itself always
returns normally; the second component is the console-error log. -/
def refreshRelevantData (env : LoaderEnv) (operationType : String) :
    Except String Unit × List String :=
  match refreshRelevantDataTry env operationType with
  | .ok _ => (.ok (), [])
  | .error e => (.ok (), ["刷新数据失败: " ++ e])

/-- `RealtimeSync.wrapApiRequest`: requests whose method (defaulting to
`'GET'`) is not POST/PUT/DELETE are passed straight through to the original
`apiRequest`; modifying requests run through `executeOperation` with the
derived operation type and `refreshRelevantData` as refresh callback. -/
def wrapApiRequest {ρ : Type}
    (originalApiRequest : String → Option String → Except String ρ)
    (env : LoaderEnv) (now : Nat) (endpoint : String)
    (optionsMethod : Option String) (s : SyncState ρ) :
    Except String ρ × SyncState ρ :=
  let method := jsOrDefault optionsMethod "GET"
  if isModifyingOperation method = false then
    (originalApiRequest endpoint optionsMethod, s)
  else
    let operationType := getOperationType endpoint method
    executeOperation operationType (originalApiRequest endpoint optionsMethod)
      (refreshRelevantData env operationType).1 now s

/-!
## `InstantResponse` (src/unnamed/part_001)

The constructor also creates a `pendingOperations` map, but nothing in the
class ever reads or writes it, so the state is the `optimisticUpdates` map
alone.  A stored rollback function is modelled by the `Except` outcome it
produces when invoked (`none` when the entry has no rollback function).
-/

structure OptimisticEntry (ρ : Type) where
  rollbackFunction : Option (Except String Unit)
  result : ρ

structure InstantState (ρ : Type) where
  optimisticUpdates : List (String × OptimisticEntry ρ)

/-- `InstantResponse.validateOperation`: the `try` body is a bare
`return true` (the source comments it as simplified handling that assumes
success), so the `catch` arm returning `false` is unreachable. -/
def validateOperation (_operation : String) : Bool :=
  true

/-- `InstantResponse.rollbackOperation`: looks up the optimistic update; if
it has a rollback function the function is awaited inside `try`, a success
logs the rollback feedback and a thrown exception is caught and logged as
`'回滚失败:'`; either way the entry is deleted afterwards.  The `Except`
codomain shows the async function itself never rejects; the list is the
console log. -/
def rollbackOperation {ρ : Type} (s : InstantState ρ) (operationId : String) :
    Except String (InstantState ρ) × List String :=
  let log :=
    match mapGet s.optimisticUpdates operationId with
    | some entry =>
      match entry.rollbackFunction with
      | some rb =>
        match rb with
        | .ok _ => ["即时反馈: 操作已回滚 warning"]
        | .error e => ["回滚失败: " ++ e]
      | none => []
    | none => []
  (.ok { optimisticUpdates := mapDelete s.optimisticUpdates operationId },
    log)

/-- Execution trace of one `backgroundSync` call: the fixed delay slept
before validating, whether the optimistic record was trusted (deleted as
validated), and whether a rollback was performed. -/
structure SyncTrace where
  waitedMs : Nat
  trusted : Bool
  rolledBack : Bool
deriving DecidableEq

/-- `InstantResponse.backgroundSync`: sleeps a fixed
`setTimeout(resolve, 100)`, then asks `validateOperation` whether the
operation "really" succeeded; on `true` it deletes the optimistic-update
record (trusting the write), on `false` it would roll back.  Nothing in the
`try` block can throw in this model, so the `catch` arm (which also rolls
back) is unreachable. -/
def backgroundSync {ρ : Type} (s : InstantState ρ)
    (operationId operation : String) :
    InstantState ρ × SyncTrace × List String :=
  let waited := 100
  if validateOperation operation then
    ({ optimisticUpdates := mapDelete s.optimisticUpdates operationId },
      ⟨waited, true, false⟩, [])
  else
    match rollbackOperation s operationId with
    | (.ok s1, log) => (s1, ⟨waited, false, true⟩, log)
    | (.error _, log) => (s, ⟨waited, false, true⟩, log)

/-- `InstantResponse.optimisticUpdate`: runs the update function at once; on
success it records the rollback closure under a fresh
`Date.now().toString()` id, shows console feedback, and schedules
`backgroundSync(operationId, operation)` without awaiting it (the returned
`Option String` is the scheduled id); on failure it re-throws. -/
def optimisticUpdate {ρ : Type} (now : Nat) (_operation : String)
    (updateFunction : Except String ρ)
    (rollbackFunction : Option (Except String Unit)) (s : InstantState ρ) :
    Except String ρ × InstantState ρ × Option String :=
  let operationId := toString now
  match updateFunction with
  | .ok result =>
    (.ok result,
      { optimisticUpdates :=
          mapSet s.optimisticUpdates operationId ⟨rollbackFunction, result⟩ },
      some operationId)
  | .error e => (.error e, s, none)

/-- `InstantResponse.wrapApiForInstantResponse`: non-modifying requests
(method defaulting to `'GET'`) go straight to the original `apiRequest`;
modifying requests run through `optimisticUpdate` with the original call as
update function and a rollback closure that triggers
`window.onDemandRefresh.refreshCurrentSection()` (its behaviour is passed in
as `rollbackOutcome`). -/
def wrapApiForInstantResponse {ρ : Type}
    (originalApiRequest : String → Option String → Except String ρ)
    (rollbackOutcome : Except String Unit) (now : Nat) (endpoint : String)
    (optionsMethod : Option String) (s : InstantState ρ) :
    Except String ρ × InstantState ρ × Option String :=
  let method := jsOrDefault optionsMethod "GET"
  if isModifyingOperation method = false then
    (originalApiRequest endpoint optionsMethod, s, none)
  else
    optimisticUpdate now (method ++ " " ++ endpoint)
      (originalApiRequest endpoint optionsMethod) (some rollbackOutcome) s

/-!
## `apiRequest` (src/frontend/assets/config.js)

URL building (`getApiUrl`) and the `fetch` itself are external I/O: the
embedding takes the awaited `fetch` response as input.  `response.json()` is
modelled by the `body` carried on the response (a map of fields, of which
only the `error` field is consulted by this code); the `bodyRead` flag on
the browser state records whether `response.json()` was awaited.
-/

structure JsonBody where
  errorField : Option String
  payload : List (String × String)
deriving DecidableEq

structure HttpResponse where
  status : Nat
  body : JsonBody
deriving DecidableEq

/-- `fetch`'s `Response.ok`: status in the inclusive range 200–299. -/
def respOk (r : HttpResponse) : Bool :=
  decide (200 ≤ r.status ∧ r.status < 300)

structure BrowserState where
  localStorage : List (String × String)
  href : String
  bodyRead : Bool
deriving DecidableEq

/-- `localStorage.removeItem`. -/
def removeItem (m : List (String × String)) (k : String) :
    List (String × String) :=
  m.filter fun p => decide ¬(p.1 = k)

/-- The response handling of `apiRequest` (config.js lines 70–92): a 401
clears the four auth keys, redirects to `login.html` and returns `undefined`
without touching the body; otherwise the body is parsed and either an
`Error(data.error || 'Request failed')` is thrown (when `!response.ok`) or
the parsed body is returned.  `.ok none` models returning `undefined`. -/
def apiRequest (response : HttpResponse) (b : BrowserState) :
    Except String (Option JsonBody) × BrowserState :=
  if response.status = 401 then
    (.ok none,
      { b with
        localStorage :=
          removeItem (removeItem (removeItem
            (removeItem b.localStorage "token") "role") "username") "user_id",
        href := "login.html" })
  else
    let b1 := { b with bodyRead := true }
    let data := response.body
    if respOk response = false then
      (.error (jsOrDefault data.errorField "Request failed"), b1)
    else
      (.ok (some data), b1)

/-!
## Sync engine (modelled from the spec)

The backend conflict resolver and sync engine (`backend/db_sync.py` in the
README's project layout) are not among the provided sources; the definitions
in this section are built from the spec alone (sections 3, 4.3, 4.4 and 8).
-/

/-- Modelled from the spec: a `Record` of the absent sync engine — business
attributes plus the `updated_at` / `origin_store` sync metadata (spec section
3).  `attrs` is the business state; timestamps are metadata. -/
structure SnapRecord where
  attrs : List (String × String)
  updatedAt : Nat
  originStore : String
deriving DecidableEq

/-- Modelled from the spec: one per-store snapshot of an identity handed to
the absent conflict resolver — the store's id, its `StoreHandle` priority
rank, and the record it holds (spec section 4.4). -/
structure Snapshot where
  storeId : String
  priorityRank : Nat
  record : SnapRecord
deriving DecidableEq

/-- Modelled from the spec: the strict comparison of the absent
`latest_timestamp` policy — `a` beats `b` when it has the greater
`updated_at`, with ties broken by priority rank (lower rank = higher
priority) and then by `store_id` lexical order (spec section 4.4). -/
def snapBeats (a b : Snapshot) : Bool :=
  if b.record.updatedAt < a.record.updatedAt then true
  else if a.record.updatedAt < b.record.updatedAt then false
  else if a.priorityRank < b.priorityRank then true
  else if b.priorityRank < a.priorityRank then false
  else decide (a.storeId < b.storeId)

/-- Modelled from the spec: the absent resolver's scan for the winning
snapshot, keeping the current best of the comparison `snapBeats`. -/
def pickWinner (best : Snapshot) : List Snapshot → Snapshot
  | [] => best
  | x :: rest => pickWinner (if snapBeats x best then x else best) rest

/-- Modelled from the spec: the absent `latest_timestamp` resolution policy —
the winner among a set of conflicting snapshots, `none` on an empty set. -/
def resolveLatestTimestamp : List Snapshot → Option Snapshot
  | [] => none
  | x :: rest => some (pickWinner x rest)

/-- Modelled from the spec: a `StoreHandle` of the absent sync engine
together with the store's current contents, keyed by record identity (spec
section 3). -/
structure StoreH where
  storeId : String
  priorityRank : Nat
  reachable : Bool
  data : List (Nat × SnapRecord)
deriving DecidableEq

/-- Modelled from the spec: one independent write landing in one store
before a sync run. -/
structure WriteOp where
  storeId : String
  identity : Nat
  record : SnapRecord
deriving DecidableEq

/-- Modelled from the spec: apply one write to the store it names. -/
def applyWrite (stores : List StoreH) (w : WriteOp) : List StoreH :=
  stores.map fun st =>
    if st.storeId = w.storeId then
      { st with data := mapSet st.data w.identity w.record }
    else st

/-- Modelled from the spec: apply a sequence of writes in order. -/
def applyWrites (stores : List StoreH) (ws : List WriteOp) : List StoreH :=
  ws.foldl applyWrite stores

/-- Modelled from the spec: the Collecting/Diffing phase's per-store snapshot
set for one identity — every reachable store currently holding the identity
contributes its record (spec section 4.3). -/
def snapshotsFor (stores : List StoreH) (i : Nat) : List Snapshot :=
  stores.filterMap fun st =>
    if st.reachable then
      (mapGet st.data i).map fun r => ⟨st.storeId, st.priorityRank, r⟩
    else none

/-- Modelled from the spec: an identity is touched in a run when some
reachable store holds state for it. -/
def touchedIn (stores : List StoreH) (i : Nat) : Bool :=
  !(snapshotsFor stores i).isEmpty

/-- Modelled from the spec: the Applying phase for one identity — the
resolver's winner under `latest_timestamp` is pushed to every reachable
store (unreachable stores are skipped, spec section 4.3). -/
def applyWinner (stores : List StoreH) (i : Nat) : List StoreH :=
  match resolveLatestTimestamp (snapshotsFor stores i) with
  | none => stores
  | some w =>
    stores.map fun st =>
      if st.reachable then { st with data := mapSet st.data i w.record }
      else st

/-- Modelled from the spec: one sync pass of the absent engine — every
touched identity is diffed and its winning state applied (spec section
4.3). -/
def syncPass (stores : List StoreH) (touchedIds : List Nat) : List StoreH :=
  touchedIds.foldl applyWinner stores

/-- Modelled from the spec: the business state a store reports for an
identity — attributes only, `updated_at` and `origin_store` excluded as sync
metadata (spec section 3, convergence invariant). -/
def businessState (st : StoreH) (i : Nat) : Option (List (String × String)) :=
  (mapGet st.data i).map SnapRecord.attrs

/-- Modelled from the spec: the convergence invariant of the absent sync
engine at one identity — every two reachable stores report equal business
state (spec section 3). -/
def convergedAt (stores : List StoreH) (i : Nat) : Prop :=
  ∀ s1 ∈ stores, ∀ s2 ∈ stores, s1.reachable = true → s2.reachable = true →
    businessState s1 i = businessState s2 i

/-!
## Helper lemmas
-/

theorem mapGet_mapSet {κ ν : Type} [DecidableEq κ] (m : List (κ × ν))
    (k k' : κ) (v : ν) :
    mapGet (mapSet m k v) k' = if k = k' then some v else mapGet m k' := by
  induction m with
  | nil => simp [mapSet, mapGet]
  | cons p rest ih =>
    obtain ⟨pk, pv⟩ := p
    by_cases hp : pk = k
    · subst hp
      simp only [mapSet, if_pos rfl, mapGet]
      by_cases h : pk = k' <;> simp [h]
    · simp only [mapSet, if_neg hp, mapGet, ih]
      split_ifs with h1 h2 h3 <;> simp_all

theorem mapGet_removeItem_self (m : List (String × String)) (k : String) :
    mapGet (removeItem m k) k = none := by
  induction m with
  | nil => rfl
  | cons p rest ih =>
    obtain ⟨pk, pv⟩ := p
    by_cases hp : pk = k
    · simp [removeItem, List.filter_cons, hp] at ih ⊢
      exact ih
    · simpa [removeItem, List.filter_cons, hp, mapGet] using ih

theorem mapGet_removeItem_ne (m : List (String × String)) (k k' : String)
    (h : k' ≠ k) : mapGet (removeItem m k) k' = mapGet m k' := by
  induction m with
  | nil => rfl
  | cons p rest ih =>
    obtain ⟨pk, pv⟩ := p
    by_cases hp : pk = k
    · subst hp
      have hne : ¬(pk = k') := fun hh => h hh.symm
      simpa [removeItem, List.filter_cons, mapGet, hne] using ih
    · by_cases hk : pk = k'
      · simp [removeItem, List.filter_cons, hp, mapGet, hk, h]
      · simpa [removeItem, List.filter_cons, hp, mapGet, hk] using ih

theorem setDelete_setAdd (l : List String) (x : String) :
    setDelete (setAdd l x) x = setDelete l x := by
  unfold setAdd
  by_cases h : x ∈ l
  · simp [h]
  · simp [h, setDelete, List.filter_append]

theorem not_mem_setDelete (l : List String) (x : String) :
    x ∉ setDelete l x := by
  simp [setDelete, List.mem_filter]

theorem setDelete_nil (x : String) : setDelete [] x = [] := rfl

theorem mapGet_mapDelete_self {κ ν : Type} [DecidableEq κ]
    (m : List (κ × ν)) (k : κ) : mapGet (mapDelete m k) k = none := by
  induction m with
  | nil => rfl
  | cons p rest ih =>
    obtain ⟨pk, pv⟩ := p
    by_cases hp : pk = k
    · simp [mapDelete, List.filter_cons, hp] at ih ⊢
      exact ih
    · simpa [mapDelete, List.filter_cons, hp, mapGet] using ih

/-- Behaviour of a non-skipped `refreshAfterUserAction` run: the section loop
executes with the flag raised and the `finally` clears it; the run returns
`.ok` whether or not the loop threw. -/
theorem refreshAfterUserAction_run (refreshOp : String → Except String Unit)
    (now : Nat) (actionType : String) (targetSection : Option String)
    (currentSection : String) (s : RefreshState)
    (hs : s.isRefreshing = false) :
    refreshAfterUserAction refreshOp now actionType targetSection
        currentSection s =
      .ok ({ (refreshSectionsRun refreshOp now
              (getSectionsToRefresh actionType targetSection currentSection)
              { s with isRefreshing := true }).1 with isRefreshing := false },
        (refreshSectionsRun refreshOp now
          (getSectionsToRefresh actionType targetSection currentSection)
          { s with isRefreshing := true }).2.1) := by
  unfold refreshAfterUserAction
  rw [hs]
  simp only [Bool.false_eq_true, if_false]
  rcases refreshSectionsRun refreshOp now
      (getSectionsToRefresh actionType targetSection currentSection)
      { s with isRefreshing := true } with ⟨s2, done, err⟩
  cases err <;> rfl

/-!
## Claims
-/

/-- Claim C2: at most one sync/refresh run executes at a time — when the
`isRefreshing` flag is already set, a second invocation of
`refreshAfterUserAction` returns immediately (`.ok`), leaves the state
untouched and performs no refresh work (the list of refreshed sections is
empty), for every action type and every behaviour of the underlying refresh
operations. -/
theorem c2_single_run_mutual_exclusion
    (refreshOp : String → Except String Unit) (now : Nat)
    (actionType : String) (targetSection : Option String)
    (currentSection : String) (s : RefreshState)
    (h : s.isRefreshing = true) :
    refreshAfterUserAction refreshOp now actionType targetSection
      currentSection s = .ok (s, []) := by
  simp [refreshAfterUserAction, h]

theorem c2_witness :
    (⟨true, [], 0⟩ : RefreshState).isRefreshing = true ∧
      refreshAfterUserAction (fun _ => .error "boom") 5 "create_registration"
        none "booking" ⟨true, [], 0⟩ = .ok (⟨true, [], 0⟩, []) :=
  ⟨rfl, c2_single_run_mutual_exclusion (fun _ => .error "boom") 5
    "create_registration" none "booking" ⟨true, [], 0⟩ rfl⟩

/-- Claim C3: for every action type and every behaviour of the per-section
refresh operations (including throwing ones), `refreshAfterUserAction` never
propagates an exception (its result is always `.ok`), and on every
completion path of an actual run (initial flag down) the `isRefreshing` flag
is reset to `false`, so the loop returns to idle and can run again. -/
theorem c3_never_throws_and_resets_flag
    (refreshOp : String → Except String Unit) (now : Nat)
    (actionType : String) (targetSection : Option String)
    (currentSection : String) (s : RefreshState) :
    (∃ r, refreshAfterUserAction refreshOp now actionType targetSection
        currentSection s = .ok r) ∧
      (s.isRefreshing = false →
        ∀ s1 done,
          refreshAfterUserAction refreshOp now actionType targetSection
              currentSection s = .ok (s1, done) →
          s1.isRefreshing = false) := by
  by_cases hs : s.isRefreshing = true
  · refine ⟨⟨(s, []), by simp [refreshAfterUserAction, hs]⟩, ?_⟩
    intro hfalse
    rw [hfalse] at hs
    cases hs
  · have hs' : s.isRefreshing = false := by
      revert hs
      cases s.isRefreshing <;> simp
    rw [refreshAfterUserAction_run refreshOp now actionType targetSection
      currentSection s hs']
    refine ⟨⟨_, rfl⟩, ?_⟩
    intro _ s1 done h
    injection h with h1
    rw [Prod.mk.injEq] at h1
    rw [← h1.1]

theorem c3_witness :
    (∃ r, refreshAfterUserAction (fun _ => .error "boom") 5
        "create_registration" none "booking" ⟨false, [], 0⟩ = .ok r) ∧
      ((⟨false, [], 0⟩ : RefreshState).isRefreshing = false ∧
        ∀ s1 done,
          refreshAfterUserAction (fun _ => .error "boom") 5
              "create_registration" none "booking" ⟨false, [], 0⟩ =
            .ok (s1, done) →
          s1.isRefreshing = false) := by
  have h := c3_never_throws_and_resets_flag (fun _ => .error "boom") 5
    "create_registration" none "booking" ⟨false, [], 0⟩
  exact ⟨h.1, rfl, h.2 rfl⟩

/-- Claim C4: `triggerCallbacks` invokes every callback registered for the
operation, in order, with each outcome recorded — an exception thrown by one
callback is caught and every remaining callback is still invoked, and no
exception escapes the loop (the codomain is a plain list of outcomes, not an
`Except`). -/
theorem c4_all_callbacks_invoked {ρ : Type} (s : SyncState ρ)
    (operation : String) (result : ρ) :
    triggerCallbacks s operation result =
      (mapGetD s.syncCallbacks operation []).map fun cb => cb result := by
  unfold triggerCallbacks
  generalize mapGetD s.syncCallbacks operation [] = cbs
  induction cbs with
  | nil => rfl
  | cons cb rest ih =>
    cases h : cb result with
    | ok u => simp [runCallbacks, h, ih]
    | error e => simp [runCallbacks, h, ih]

/-- In an enabled `executeOperation`, the pending-operation set after the
call is the initial set with the fresh operation id deleted, on every path
(API call throwing, refresh callback throwing, or success). -/
theorem executeOperation_pending {ρ : Type} (operationType : String)
    (apiCall : Except String ρ) (refreshCallback : Except String Unit)
    (now : Nat) (s : SyncState ρ) (h : s.isEnabled = true) :
    (executeOperation operationType apiCall refreshCallback now
        s).2.pendingOperations =
      setDelete s.pendingOperations (operationType ++ "_" ++ toString now) := by
  unfold executeOperation
  rw [h]
  cases apiCall <;> cases refreshCallback <;>
    simp [setDelete_setAdd]

/-- Claim C9: `executeOperation` removes the operation id it added on both
the success and the error path: after every call (whether it returns or
throws), the id is no longer in `pendingOperations`, and
`hasPendingOperations` is `false` whenever nothing else was in flight. -/
theorem c9_pending_operations_cleared {ρ : Type} (operationType : String)
    (apiCall : Except String ρ) (refreshCallback : Except String Unit)
    (now : Nat) (s : SyncState ρ) :
    (s.isEnabled = true →
        (operationType ++ "_" ++ toString now) ∉
          (executeOperation operationType apiCall refreshCallback now
            s).2.pendingOperations) ∧
      (s.pendingOperations = [] →
        hasPendingOperations
          (executeOperation operationType apiCall refreshCallback now s).2 =
          false) := by
  constructor
  · intro h
    rw [executeOperation_pending operationType apiCall refreshCallback now s h]
    exact not_mem_setDelete _ _
  · intro hnil
    by_cases h : s.isEnabled = true
    · rw [hasPendingOperations,
        executeOperation_pending operationType apiCall refreshCallback now s h,
        hnil]
      rfl
    · have h' : s.isEnabled = false := by
        revert h
        cases s.isEnabled <;> simp
      unfold executeOperation
      rw [h']
      simp [hasPendingOperations, hnil]

theorem c9_witness :
    (("create_registration" ++ "_" ++ toString 7) ∉
        (executeOperation "create_registration"
          (Except.error "network down" : Except String Nat) (.ok ()) 7
          ⟨[], [], true⟩).2.pendingOperations) ∧
      hasPendingOperations
        (executeOperation "create_registration"
          (Except.error "network down" : Except String Nat) (.ok ()) 7
          ⟨[], [], true⟩).2 = false := by
  have h := c9_pending_operations_cleared "create_registration"
    (Except.error "network down" : Except String Nat) (.ok ()) 7
    ⟨[], [], true⟩
  exact ⟨h.1 rfl, h.2 rfl⟩

/-- Claim C8: for every request whose method (defaulting to `'GET'`) is not
POST/PUT/DELETE, both wrappers return exactly the original `apiRequest`
result on the same arguments, with the sync state and the optimistic-update
state untouched and no background sync scheduled. -/
theorem c8_non_modifying_passthrough {ρ : Type}
    (originalApiRequest : String → Option String → Except String ρ)
    (env : LoaderEnv) (rollbackOutcome : Except String Unit) (now : Nat)
    (endpoint : String) (optionsMethod : Option String) (s : SyncState ρ)
    (t : InstantState ρ)
    (h : isModifyingOperation (jsOrDefault optionsMethod "GET") = false) :
    wrapApiRequest originalApiRequest env now endpoint optionsMethod s =
        (originalApiRequest endpoint optionsMethod, s) ∧
      wrapApiForInstantResponse originalApiRequest rollbackOutcome now
          endpoint optionsMethod t =
        (originalApiRequest endpoint optionsMethod, t, none) := by
  constructor
  · simp [wrapApiRequest, h]
  · simp [wrapApiForInstantResponse, h]

theorem c8_witness :
    isModifyingOperation (jsOrDefault none "GET") = false ∧
      (wrapApiRequest (fun _ _ => (.ok 3 : Except String Nat))
          ⟨none, none, none, none, none⟩ 9 "/departments" none
          ⟨[], [], true⟩ =
        ((.ok 3 : Except String Nat), ⟨[], [], true⟩) ∧
      wrapApiForInstantResponse (fun _ _ => (.ok 3 : Except String Nat))
          (.ok ()) 9 "/departments" none ⟨[]⟩ =
        ((.ok 3 : Except String Nat), ⟨[]⟩, none)) :=
  ⟨by decide, c8_non_modifying_passthrough (fun _ _ => (.ok 3 : Except String Nat))
    ⟨none, none, none, none, none⟩ (.ok ()) 9 "/departments" none
    ⟨[], [], true⟩ ⟨[]⟩ (by decide)⟩

/-- Claim C10: `apiRequest` on a 401 response clears the `token`, `role`,
`username` and `user_id` localStorage keys, redirects to `login.html`, and
returns `undefined` (`.ok none`) without throwing and without reading the
response body; on every other status it reads the body and throws exactly
when `response.ok` is false, otherwise returning the parsed body. -/
theorem c10_api_request_response_handling (response : HttpResponse)
    (b : BrowserState) :
    (response.status = 401 →
        (apiRequest response b).1 = .ok none ∧
        (apiRequest response b).2.href = "login.html" ∧
        (apiRequest response b).2.bodyRead = b.bodyRead ∧
        mapGet (apiRequest response b).2.localStorage "token" = none ∧
        mapGet (apiRequest response b).2.localStorage "role" = none ∧
        mapGet (apiRequest response b).2.localStorage "username" = none ∧
        mapGet (apiRequest response b).2.localStorage "user_id" = none) ∧
      (response.status ≠ 401 →
        (apiRequest response b).2.bodyRead = true ∧
        (respOk response = false →
          (apiRequest response b).1 =
            .error (jsOrDefault response.body.errorField "Request failed")) ∧
        (respOk response = true →
          (apiRequest response b).1 = .ok (some response.body))) := by
  constructor
  · intro h401
    have hL : (apiRequest response b).2.localStorage =
        removeItem (removeItem (removeItem
          (removeItem b.localStorage "token") "role") "username") "user_id" := by
      simp [apiRequest, h401]
    refine ⟨by simp [apiRequest, h401], by simp [apiRequest, h401],
      by simp [apiRequest, h401], ?_, ?_, ?_, ?_⟩
    · rw [hL, mapGet_removeItem_ne _ _ _ (by decide),
        mapGet_removeItem_ne _ _ _ (by decide),
        mapGet_removeItem_ne _ _ _ (by decide)]
      exact mapGet_removeItem_self _ _
    · rw [hL, mapGet_removeItem_ne _ _ _ (by decide),
        mapGet_removeItem_ne _ _ _ (by decide)]
      exact mapGet_removeItem_self _ _
    · rw [hL, mapGet_removeItem_ne _ _ _ (by decide)]
      exact mapGet_removeItem_self _ _
    · rw [hL]
      exact mapGet_removeItem_self _ _
  · intro h401
    refine ⟨?_, ?_, ?_⟩
    · simp only [apiRequest, if_neg h401]
      split <;> rfl
    · intro hok
      simp [apiRequest, h401, hok]
    · intro hok
      simp [apiRequest, h401, hok]

theorem c10_witness :
    ((apiRequest ⟨401, ⟨none, []⟩⟩
        ⟨[("token", "t"), ("role", "patient"), ("username", "u"),
          ("user_id", "1"), ("theme", "dark")], "home.html", false⟩).1 =
      .ok none ∧
    (apiRequest ⟨401, ⟨none, []⟩⟩
        ⟨[("token", "t"), ("role", "patient"), ("username", "u"),
          ("user_id", "1"), ("theme", "dark")], "home.html", false⟩).2.href =
      "login.html" ∧
    (apiRequest ⟨401, ⟨none, []⟩⟩
        ⟨[("token", "t"), ("role", "patient"), ("username", "u"),
          ("user_id", "1"), ("theme", "dark")],
          "home.html", false⟩).2.bodyRead = false ∧
    mapGet (apiRequest ⟨401, ⟨none, []⟩⟩
        ⟨[("token", "t"), ("role", "patient"), ("username", "u"),
          ("user_id", "1"), ("theme", "dark")],
          "home.html", false⟩).2.localStorage "token" = none ∧
    mapGet (apiRequest ⟨401, ⟨none, []⟩⟩
        ⟨[("token", "t"), ("role", "patient"), ("username", "u"),
          ("user_id", "1"), ("theme", "dark")],
          "home.html", false⟩).2.localStorage "role" = none ∧
    mapGet (apiRequest ⟨401, ⟨none, []⟩⟩
        ⟨[("token", "t"), ("role", "patient"), ("username", "u"),
          ("user_id", "1"), ("theme", "dark")],
          "home.html", false⟩).2.localStorage "username" = none ∧
    mapGet (apiRequest ⟨401, ⟨none, []⟩⟩
        ⟨[("token", "t"), ("role", "patient"), ("username", "u"),
          ("user_id", "1"), ("theme", "dark")],
          "home.html", false⟩).2.localStorage "user_id" = none) ∧
      ((apiRequest ⟨500, ⟨some "boom", []⟩⟩ ⟨[], "home.html", false⟩).1 =
        .error "boom") :=
  ⟨(c10_api_request_response_handling ⟨401, ⟨none, []⟩⟩
      ⟨[("token", "t"), ("role", "patient"), ("username", "u"),
        ("user_id", "1"), ("theme", "dark")], "home.html", false⟩).1 rfl,
   ((c10_api_request_response_handling ⟨500, ⟨some "boom", []⟩⟩
      ⟨[], "home.html", false⟩).2 (by decide)).2.1 rfl⟩

/-- Claim C5 counterexample: for a modifying operation whose backend write in
fact failed, `validateOperation` still answers `true` (it cannot observe any
outcome), `backgroundSync` waits the fixed 100 ms delay and then trusts the
write — deleting the optimistic-update record without rolling back — and
`waitForSync` waits 0 ms regardless of its timeout.  No explicit per-store
acknowledgment of the write occurs anywhere on this path, refuting the claim
that the engine confirms success before trusting a write. -/
theorem c5_counterexample :
    validateOperation "POST /register with failed backend write" = true ∧
      (backgroundSync
          (⟨[("42", ⟨some (.ok ()), 0⟩)]⟩ : InstantState Nat) "42"
          "POST /register with failed backend write").2.1 =
        ⟨100, true, false⟩ ∧
      (backgroundSync
          (⟨[("42", ⟨some (.ok ()), 0⟩)]⟩ : InstantState Nat) "42"
          "POST /register with failed backend write").1.optimisticUpdates =
        [] ∧
      waitForSync 5000 = 0 :=
  ⟨rfl, rfl, rfl, rfl⟩

/-- Claim C5 (amended): after a modifying operation the code waits a fixed
short delay and assumes success instead of confirming it —
`validateOperation` returns `true` for every operation, so `backgroundSync`
always waits exactly 100 ms, trusts the write, deletes the optimistic-update
record and never rolls back, and `waitForSync` performs no wait at all. -/
theorem c5_amended_fixed_delay_assumes_success {ρ : Type}
    (s : InstantState ρ) (operationId operation : String) (t : Nat) :
    validateOperation operation = true ∧
      (backgroundSync s operationId operation).2.1 = ⟨100, true, false⟩ ∧
      mapGet (backgroundSync s operationId operation).1.optimisticUpdates
        operationId = none ∧
      waitForSync t = 0 := by
  refine ⟨rfl, rfl, ?_, rfl⟩
  exact mapGet_mapDelete_self s.optimisticUpdates operationId

/-- Claim C6 counterexample: a failure while refreshing data after an
operation (`loadRegistrations` throwing inside `refreshRelevantData`) and a
failure while rolling back (`rollbackOperation` with a throwing rollback
function) are both swallowed: each function returns normally (`.ok`), the
error surviving only as a console-log line — no typed error value is
propagated into any recorded outcome, refuting the claim. -/
theorem c6_counterexample :
    refreshRelevantData
        ⟨some (.error "db write lost"), some (.ok ()), none, none,
          some (.ok ())⟩ "create_registration" =
      (.ok (), ["刷新数据失败: db write lost"]) ∧
      rollbackOperation
          (⟨[("42", ⟨some (.error "rollback crashed"), 0⟩)]⟩ :
            InstantState Nat) "42" =
        (.ok ⟨[]⟩, ["回滚失败: rollback crashed"]) :=
  ⟨rfl, rfl⟩

/-- Claim C6 (amended): every failure occurring while refreshing data after
an operation or while rolling an operation back is caught inside
`refreshRelevantData` / `rollbackOperation` and recorded only on the console
log; both functions always return normally (`.ok`), so no error value
reaches any recorded run outcome. -/
theorem c6_amended_failures_logged_not_propagated {ρ : Type}
    (env : LoaderEnv) (operationType : String) (s : InstantState ρ)
    (operationId : String) :
    (refreshRelevantData env operationType).1 = .ok () ∧
      (rollbackOperation s operationId).1 =
        .ok ⟨mapDelete s.optimisticUpdates operationId⟩ := by
  constructor
  · unfold refreshRelevantData
    cases refreshRelevantDataTry env operationType <;> rfl
  · rfl

theorem snapBeats_iff (a b : Snapshot) :
    snapBeats a b = true ↔
      b.record.updatedAt < a.record.updatedAt ∨
        (a.record.updatedAt = b.record.updatedAt ∧
          (a.priorityRank < b.priorityRank ∨
            (a.priorityRank = b.priorityRank ∧ a.storeId < b.storeId))) := by
  unfold snapBeats
  split_ifs with h1 h2 h3 h4
  · simp [h1]
  · simp only [Bool.false_eq_true, false_iff]
    rintro (h | ⟨heq, _⟩) <;> omega
  · exact ⟨fun _ => Or.inr ⟨by omega, Or.inl h3⟩, fun _ => rfl⟩
  · simp only [Bool.false_eq_true, false_iff]
    rintro (h | ⟨heq, hlt | ⟨hre, _⟩⟩) <;> omega
  · rw [decide_eq_true_iff]
    constructor
    · intro hs
      exact Or.inr ⟨by omega, Or.inr ⟨by omega, hs⟩⟩
    · rintro (h | ⟨_, hlt | ⟨_, hs⟩⟩)
      · omega
      · omega
      · exact hs

theorem snapBeats_updatedAt_le {a b : Snapshot} (h : snapBeats a b = true) :
    b.record.updatedAt ≤ a.record.updatedAt := by
  rcases (snapBeats_iff a b).mp h with h1 | ⟨heq, _⟩ <;> omega

theorem snapBeats_asymm {a b : Snapshot} (hab : snapBeats a b = true)
    (hba : snapBeats b a = true) : False := by
  rcases (snapBeats_iff a b).mp hab with h1 | ⟨he1, h2 | ⟨hr1, hs1⟩⟩ <;>
    rcases (snapBeats_iff b a).mp hba with g1 | ⟨ge1, g2 | ⟨gr1, gs1⟩⟩ <;>
    first
      | omega
      | exact absurd (lt_trans hs1 gs1) (lt_irrefl _)

theorem snapBeats_trans {a b c : Snapshot} (hab : snapBeats a b = true)
    (hbc : snapBeats b c = true) : snapBeats a c = true := by
  rw [snapBeats_iff] at hab hbc ⊢
  rcases hab with h1 | ⟨he1, h2 | ⟨hr1, hs1⟩⟩ <;>
    rcases hbc with g1 | ⟨ge1, g2 | ⟨gr1, gs1⟩⟩
  all_goals
    first
      | exact Or.inl (by omega)
      | exact Or.inr ⟨by omega, Or.inl (by omega)⟩
      | exact Or.inr ⟨by omega, Or.inr ⟨by omega, lt_trans hs1 gs1⟩⟩

theorem snapBeats_total {a b : Snapshot} (h : a.storeId ≠ b.storeId) :
    snapBeats a b = true ∨ snapBeats b a = true := by
  rcases lt_trichotomy a.record.updatedAt b.record.updatedAt with h1 | h1 | h1
  · exact Or.inr ((snapBeats_iff b a).mpr (Or.inl h1))
  · rcases lt_trichotomy a.priorityRank b.priorityRank with h2 | h2 | h2
    · exact Or.inl ((snapBeats_iff a b).mpr (Or.inr ⟨h1, Or.inl h2⟩))
    · rcases lt_or_gt_of_ne h with h3 | h3
      · exact Or.inl
          ((snapBeats_iff a b).mpr (Or.inr ⟨h1, Or.inr ⟨h2, h3⟩⟩))
      · exact Or.inr
          ((snapBeats_iff b a).mpr (Or.inr ⟨h1.symm, Or.inr ⟨h2.symm, h3⟩⟩))
    · exact Or.inr ((snapBeats_iff b a).mpr (Or.inr ⟨h1.symm, Or.inl h2⟩))
  · exact Or.inl ((snapBeats_iff a b).mpr (Or.inl h1))

/-- The scan `pickWinner best l` returns an element of `best :: l` that
beats every other element of `best :: l`, provided the store ids in the
carrier are pairwise distinct (which makes the comparison total). -/
theorem pickWinner_spec (l : List Snapshot) : ∀ best : Snapshot,
    (best :: l).Pairwise (fun a b => a.storeId ≠ b.storeId) →
    (pickWinner best l = best ∨ pickWinner best l ∈ l) ∧
      ∀ x ∈ best :: l, x = pickWinner best l ∨
        snapBeats (pickWinner best l) x = true := by
  induction l with
  | nil =>
    intro best _
    refine ⟨Or.inl rfl, ?_⟩
    intro x hx
    rw [List.mem_singleton] at hx
    simp only [pickWinner]
    exact Or.inl hx
  | cons y rest ih =>
    intro best hp
    cases hp with
    | cons hbest hp' =>
      have hyne : best.storeId ≠ y.storeId := hbest y (List.mem_cons_self y rest)
      cases hp' with
      | cons hy hp'' =>
        simp only [pickWinner]
        by_cases hb : snapBeats y best = true
        · rw [if_pos hb]
          obtain ⟨hmem, hdom⟩ := ih y (List.Pairwise.cons hy hp'')
          have hwbeatsbest : best = pickWinner y rest ∨
              snapBeats (pickWinner y rest) best = true := by
            rcases hdom y (List.mem_cons_self y rest) with hyw | hyw
            · exact Or.inr (hyw ▸ hb)
            · exact Or.inr (snapBeats_trans hyw hb)
          constructor
          · rcases hmem with h | h
            · exact Or.inr (by rw [h]; exact List.mem_cons_self y rest)
            · exact Or.inr (List.mem_cons_of_mem y h)
          · intro x hx
            rcases List.mem_cons.mp hx with hxb | hxmem
            · subst hxb
              exact hwbeatsbest
            · exact hdom x hxmem
        · rw [if_neg hb]
          have hrestp : (best :: rest).Pairwise
              (fun a b => a.storeId ≠ b.storeId) :=
            List.Pairwise.cons
              (fun b hbm => hbest b (List.mem_cons_of_mem y hbm)) hp''
          obtain ⟨hmem, hdom⟩ := ih best hrestp
          have hby : snapBeats best y = true := by
            rcases snapBeats_total hyne with h | h
            · exact h
            · exact absurd h hb
          have hwbeatsy : y = pickWinner best rest ∨
              snapBeats (pickWinner best rest) y = true := by
            rcases hdom best (List.mem_cons_self best rest) with hbw | hbw
            · exact Or.inr (hbw ▸ hby)
            · exact Or.inr (snapBeats_trans hbw hby)
          constructor
          · rcases hmem with h | h
            · exact Or.inl h
            · exact Or.inr (List.mem_cons_of_mem y h)
          · intro x hx
            rcases List.mem_cons.mp hx with hxb | hxmem
            · subst hxb
              exact hdom x (List.mem_cons_self x rest)
            · rcases List.mem_cons.mp hxmem with hxy | hxrest
              · subst hxy
                exact hwbeatsy
              · exact hdom x (List.mem_cons_of_mem best hxrest)

/-- Any two elements of a distinct-store-id carrier that each beat every
other element of the carrier are equal. -/
theorem winner_unique {c : List Snapshot} {w1 w2 : Snapshot}
    (h1m : w1 ∈ c) (h2m : w2 ∈ c)
    (h1 : ∀ s ∈ c, s = w1 ∨ snapBeats w1 s = true)
    (h2 : ∀ s ∈ c, s = w2 ∨ snapBeats w2 s = true) : w1 = w2 := by
  rcases h2 w1 h1m with h | h
  · exact h
  · rcases h1 w2 h2m with g | g
    · exact g.symm
    · exact (snapBeats_asymm g h).elim

/-- Claim C7: under the `latest_timestamp` policy, for every non-empty set
of conflicting snapshots with pairwise-distinct store ids the resolver picks
a winner that is one of the snapshots, has the greatest `updated_at`, and
strictly beats every other snapshot in the lexicographic
(`updated_at`, priority rank, `store_id`) order — in particular ties on
`updated_at` are broken by priority rank and then store id — and the same
winner is chosen for every reordering of the same snapshots, so repeated
runs over the same snapshot set are deterministic. -/
theorem c7_latest_timestamp_deterministic (x : Snapshot) (l : List Snapshot)
    (hp : (x :: l).Pairwise fun a b => a.storeId ≠ b.storeId) :
    ∃ w, resolveLatestTimestamp (x :: l) = some w ∧ w ∈ x :: l ∧
      (∀ s ∈ x :: l, s.record.updatedAt ≤ w.record.updatedAt) ∧
      (∀ s ∈ x :: l, s ≠ w → snapBeats w s = true) ∧
      ∀ l', (x :: l).Perm l' → resolveLatestTimestamp l' = some w := by
  obtain ⟨hmem, hdom⟩ := pickWinner_spec l x hp
  have hwmem : pickWinner x l ∈ x :: l := by
    rcases hmem with h | h
    · rw [h]
      exact List.mem_cons_self x l
    · exact List.mem_cons_of_mem x h
  refine ⟨pickWinner x l, rfl, hwmem, ?_, ?_, ?_⟩
  · intro s hs
    rcases hdom s hs with h | h
    · rw [h]
    · exact snapBeats_updatedAt_le h
  · intro s hs hne
    rcases hdom s hs with h | h
    · exact absurd h hne
    · exact h
  · intro l' hperm
    cases l' with
    | nil =>
      have := hperm.length_eq
      simp at this
    | cons y m =>
      have hp' : (y :: m).Pairwise
          (fun a b : Snapshot => a.storeId ≠ b.storeId) :=
        (List.Perm.pairwise_iff (fun {a b} h => Ne.symm h) hperm).mp hp
      obtain ⟨hmem', hdom'⟩ := pickWinner_spec m y hp'
      have hw'mem : pickWinner y m ∈ x :: l := by
        refine hperm.mem_iff.mpr ?_
        rcases hmem' with h | h
        · rw [h]
          exact List.mem_cons_self y m
        · exact List.mem_cons_of_mem y h
      have hdomc : ∀ s ∈ x :: l, s = pickWinner y m ∨
          snapBeats (pickWinner y m) s = true :=
        fun s hs => hdom' s (hperm.mem_iff.mp hs)
      have heq : pickWinner y m = pickWinner x l :=
        winner_unique hw'mem hwmem hdomc hdom
      show some (pickWinner y m) = some (pickWinner x l)
      rw [heq]

theorem c7_witness :
    ∃ w, resolveLatestTimestamp
        ([⟨"primary", 0, ⟨[("status", "confirmed")], 100, "primary"⟩⟩,
          ⟨"mysql", 1, ⟨[("status", "cancelled")], 100, "mysql"⟩⟩] :
          List Snapshot) = some w ∧
      w ∈ ([⟨"primary", 0, ⟨[("status", "confirmed")], 100, "primary"⟩⟩,
        ⟨"mysql", 1, ⟨[("status", "cancelled")], 100, "mysql"⟩⟩] :
        List Snapshot) ∧
      (∀ s ∈ ([⟨"primary", 0, ⟨[("status", "confirmed")], 100, "primary"⟩⟩,
          ⟨"mysql", 1, ⟨[("status", "cancelled")], 100, "mysql"⟩⟩] :
          List Snapshot),
        s.record.updatedAt ≤ w.record.updatedAt) ∧
      (∀ s ∈ ([⟨"primary", 0, ⟨[("status", "confirmed")], 100, "primary"⟩⟩,
          ⟨"mysql", 1, ⟨[("status", "cancelled")], 100, "mysql"⟩⟩] :
          List Snapshot),
        s ≠ w → snapBeats w s = true) ∧
      ∀ l', ([⟨"primary", 0, ⟨[("status", "confirmed")], 100, "primary"⟩⟩,
          ⟨"mysql", 1, ⟨[("status", "cancelled")], 100, "mysql"⟩⟩] :
          List Snapshot).Perm l' →
        resolveLatestTimestamp l' = some w :=
  c7_latest_timestamp_deterministic
    ⟨"primary", 0, ⟨[("status", "confirmed")], 100, "primary"⟩⟩
    [⟨"mysql", 1, ⟨[("status", "cancelled")], 100, "mysql"⟩⟩]
    (by simp [List.pairwise_cons])

theorem touchedIn_iff (stores : List StoreH) (i : Nat) :
    touchedIn stores i = true ↔
      ∃ st ∈ stores, st.reachable = true ∧ ∃ r, mapGet st.data i = some r := by
  induction stores with
  | nil => simp [touchedIn, snapshotsFor]
  | cons st rest ih =>
    simp only [touchedIn, snapshotsFor, List.filterMap_cons] at ih ⊢
    by_cases hr : st.reachable = true
    · cases hm : mapGet st.data i with
      | none => simp [hr, hm, ih, List.mem_cons]
      | some r => simp [hr, hm, List.mem_cons]
    · have hr' : st.reachable = false := by
        revert hr
        cases st.reachable <;> simp
      simp [hr', ih, List.mem_cons]

theorem convergedAt_applyWinner_self (stores : List StoreH) (i : Nat)
    (h : touchedIn stores i = true) : convergedAt (applyWinner stores i) i := by
  have hne : snapshotsFor stores i ≠ [] := by
    unfold touchedIn at h
    intro hnil
    rw [hnil] at h
    simp at h
  obtain ⟨w, hw⟩ : ∃ w,
      resolveLatestTimestamp (snapshotsFor stores i) = some w := by
    cases hsnap : snapshotsFor stores i with
    | nil => exact absurd hsnap hne
    | cons a rest => exact ⟨pickWinner a rest, rfl⟩
  intro s1 h1 s2 h2 hr1 hr2
  unfold applyWinner at h1 h2
  rw [hw] at h1 h2
  obtain ⟨t1, ht1, hg1⟩ := List.mem_map.mp h1
  obtain ⟨t2, ht2, hg2⟩ := List.mem_map.mp h2
  have e1 : businessState s1 i = some w.record.attrs := by
    by_cases htr : t1.reachable = true
    · rw [← hg1, if_pos htr]
      simp only [businessState]
      rw [mapGet_mapSet]
      simp
    · rw [← hg1, if_neg htr] at hr1
      exact absurd hr1 htr
  have e2 : businessState s2 i = some w.record.attrs := by
    by_cases htr : t2.reachable = true
    · rw [← hg2, if_pos htr]
      simp only [businessState]
      rw [mapGet_mapSet]
      simp
    · rw [← hg2, if_neg htr] at hr2
      exact absurd hr2 htr
  rw [e1, e2]

theorem convergedAt_applyWinner (stores : List StoreH) (i j : Nat)
    (h : convergedAt stores i) : convergedAt (applyWinner stores j) i := by
  unfold applyWinner
  cases hres : resolveLatestTimestamp (snapshotsFor stores j) with
  | none => exact h
  | some w =>
    intro s1 h1 s2 h2 hr1 hr2
    obtain ⟨t1, ht1, hg1⟩ := List.mem_map.mp h1
    obtain ⟨t2, ht2, hg2⟩ := List.mem_map.mp h2
    have htr1 : t1.reachable = true := by
      by_cases hh : t1.reachable = true
      · exact hh
      · rw [← hg1, if_neg hh] at hr1
        exact absurd hr1 hh
    have htr2 : t2.reachable = true := by
      by_cases hh : t2.reachable = true
      · exact hh
      · rw [← hg2, if_neg hh] at hr2
        exact absurd hr2 hh
    by_cases hq : j = i
    · subst hq
      have e1 : businessState s1 j = some w.record.attrs := by
        rw [← hg1, if_pos htr1]
        simp only [businessState]
        rw [mapGet_mapSet]
        simp
      have e2 : businessState s2 j = some w.record.attrs := by
        rw [← hg2, if_pos htr2]
        simp only [businessState]
        rw [mapGet_mapSet]
        simp
      rw [e1, e2]
    · have e1 : businessState s1 i = businessState t1 i := by
        rw [← hg1, if_pos htr1]
        simp only [businessState]
        rw [mapGet_mapSet, if_neg hq]
      have e2 : businessState s2 i = businessState t2 i := by
        rw [← hg2, if_pos htr2]
        simp only [businessState]
        rw [mapGet_mapSet, if_neg hq]
      rw [e1, e2]
      exact h t1 ht1 t2 ht2 htr1 htr2

theorem convergedAt_foldl (ids : List Nat) :
    ∀ (stores : List StoreH) (i : Nat), convergedAt stores i →
      convergedAt (List.foldl applyWinner stores ids) i := by
  induction ids with
  | nil => exact fun stores i h => h
  | cons j rest ih =>
    intro stores i h
    exact ih (applyWinner stores j) i (convergedAt_applyWinner stores i j h)

theorem touchedIn_applyWinner (stores : List StoreH) (i j : Nat)
    (h : touchedIn stores i = true) :
    touchedIn (applyWinner stores j) i = true := by
  obtain ⟨st, hmem, hre, r, hr⟩ := (touchedIn_iff stores i).mp h
  unfold applyWinner
  cases hres : resolveLatestTimestamp (snapshotsFor stores j) with
  | none => exact h
  | some w =>
    refine (touchedIn_iff _ i).mpr ?_
    refine ⟨if st.reachable = true then
        { st with data := mapSet st.data j w.record } else st,
      List.mem_map_of_mem _ hmem, ?_⟩
    rw [if_pos hre]
    refine ⟨hre, ?_⟩
    rw [mapGet_mapSet]
    by_cases hji : j = i
    · exact ⟨w.record, by rw [if_pos hji]⟩
    · exact ⟨r, by rw [if_neg hji]; exact hr⟩

theorem convergedAt_syncPass (ids : List Nat) :
    ∀ (stores : List StoreH) (i : Nat), i ∈ ids →
      touchedIn stores i = true → convergedAt (syncPass stores ids) i := by
  induction ids with
  | nil =>
    intro stores i hi
    cases hi
  | cons j rest ih =>
    intro stores i hi ht
    rcases List.mem_cons.mp hi with hij | hirest
    · subst hij
      exact convergedAt_foldl rest (applyWinner stores i) i
        (convergedAt_applyWinner_self stores i ht)
    · exact ih (applyWinner stores j) i hirest
        (touchedIn_applyWinner stores i j ht)

/-- Claim C1: for every identity touched during a run, after a sync pass
completes all reachable stores hold equal business state for that identity
(attributes only, timestamps excluded), for every sequence of prior writes
to any subset of the stores — the convergence invariant of the modelled
engine. -/
theorem c1_convergence_after_sync (ws : List WriteOp) (init : List StoreH)
    (touchedIds : List Nat) (i : Nat) (hi : i ∈ touchedIds)
    (ht : touchedIn (applyWrites init ws) i = true) (s1 s2 : StoreH)
    (h1 : s1 ∈ syncPass (applyWrites init ws) touchedIds)
    (h2 : s2 ∈ syncPass (applyWrites init ws) touchedIds)
    (hr1 : s1.reachable = true) (hr2 : s2.reachable = true) :
    businessState s1 i = businessState s2 i :=
  convergedAt_syncPass touchedIds (applyWrites init ws) i hi ht
    s1 h1 s2 h2 hr1 hr2

theorem c1_witness :
    businessState
        ⟨"primary", 0, true,
          [(42, ⟨[("status", "cancelled")], 105, "mysql"⟩)]⟩ 42 =
      businessState
        ⟨"mysql", 1, true,
          [(42, ⟨[("status", "cancelled")], 105, "mysql"⟩)]⟩ 42 :=
  c1_convergence_after_sync
    [⟨"primary", 42, ⟨[("status", "confirmed")], 100, "primary"⟩⟩,
      ⟨"mysql", 42, ⟨[("status", "cancelled")], 105, "mysql"⟩⟩]
    [⟨"primary", 0, true, []⟩, ⟨"mysql", 1, true, []⟩]
    [42] 42 (by decide) (by decide)
    ⟨"primary", 0, true, [(42, ⟨[("status", "cancelled")], 105, "mysql"⟩)]⟩
    ⟨"mysql", 1, true, [(42, ⟨[("status", "cancelled")], 105, "mysql"⟩)]⟩
    (by decide) (by decide) rfl rfl
